import Mathlib

/-!
Verification of the SecuGen fingerprint engine (`src/fingerprint.js`).

This file gives a shallow embedding of the data model and operations of the
`SecuGenScanner` class: the template codec (`generateTemplate`,
`parseMinutiae`), the matcher (`match`), the quality scorer
(`calculateQuality`), and the connect/capture/disconnect session state
machine.  Byte buffers are modelled as `List Nat` (each entry one byte);
JavaScript numbers are modelled as `Nat`/`Int`/`Rat` with explicit `% 256`
truncation where `Buffer` writes truncate.  The one place where IEEE-754
binary64 arithmetic is observable — the score expression
`Math.round((matchedCount / maxPossible) * 100)` in `match` — is modelled
exactly by `jsScoreN` below, a bit-precise integer model of the double
computation (correctly-rounded division, correctly-rounded product, and
`Math.round`'s ties-toward-positive-infinity).
-/

namespace Fingerprint

/-- A minutia record as produced by `extractMinutiae` and stored in a
template: `{x, y, angle, type}` (source `fingerprint.js`, lines 788–803). -/
structure Minutia where
  x : Nat
  y : Nat
  angle : Nat
  type : Nat
  deriving Repr, DecidableEq

/-- Per-device image configuration (source `DEVICE_CONFIG`, lines 46–51):
width, height, dpi.  Every configured device uses `{260, 300, 500}`. -/
structure ImageConfig where
  width : Nat
  height : Nat
  dpi : Nat
  deriving Repr, DecidableEq

/-- The `DEVICE_CONFIG.DEFAULT` entry (also the value of every other entry). -/
def defaultConfig : ImageConfig := ⟨260, 300, 500⟩

/-! ## Template codec -/

/-- The 6-byte big-endian encoding of one minutia written by
`generateTemplate` (lines 755–762): `writeUInt16BE(m.x)`, `writeUInt16BE(m.y)`,
then the `angle` and `type` bytes.  Byte stores truncate mod 256; Node's
`writeUInt16BE` throws outside `0..65535`, and every theorem below that uses
this definition restricts the fields to those ranges. -/
def encodeMinutia (m : Minutia) : List Nat :=
  [m.x / 256 % 256, m.x % 256, m.y / 256 % 256, m.y % 256, m.angle % 256, m.type % 256]

/-- The serialization performed by `generateTemplate` (lines 740–768) after
minutiae extraction: a 14-byte header `"FMR\0", "\x20\x32\x30"`, the minutiae
count byte, big-endian width/height/dpi, then 6 bytes per minutia, then a
16-byte digest of header+minutiae.  The source digest is
`sha256(templateData).slice(0, 16)`; the hash function is abstracted as the
parameter `hash` (theorems only ever use that its output has length 16,
which `sha256(...).slice(0, 16)` satisfies).  The fixed 14-byte header
(lines 745–752) is split out as `templateHeader`. -/
def templateHeader (cfg : ImageConfig) (minutiae : List Minutia) : List Nat :=
  [0x46, 0x4D, 0x52, 0x00, 0x20, 0x32, 0x30,
   minutiae.length % 256,
   cfg.width / 256 % 256, cfg.width % 256,
   cfg.height / 256 % 256, cfg.height % 256,
   cfg.dpi / 256 % 256, cfg.dpi % 256]

def generateTemplate (cfg : ImageConfig) (minutiae : List Minutia)
    (hash : List Nat → List Nat) : List Nat :=
  let header := templateHeader cfg minutiae
  let minutiaeData := (minutiae.map encodeMinutia).flatten
  let templateData := header ++ minutiaeData
  templateData ++ hash templateData

/-- `Buffer.readUInt16BE` at a fixed offset, as used by `parseMinutiae`
(lines 908–909): big-endian 16-bit read.  Out-of-bounds reads never occur at
the call sites (the loop guard keeps the offsets in bounds), so the `getD`
default is unobservable there. -/
def readUInt16BE (t : List Nat) (off : Nat) : Nat :=
  t.getD off 0 * 256 + t.getD (off + 1) 0

/-- The record-reading loop of `parseMinutiae` (lines 905–913):
`for (i = 0; i < count && (14 + i*6 + 5) < template.length - 16; i++)`.
`fuel` is `count - i`, so `fuel = 0` is exactly the exit `i = count`. -/
def parseRecords (t : List Nat) : Nat → Nat → List Minutia
  | 0, _ => []
  | fuel + 1, i =>
    if 14 + i * 6 + 5 < t.length - 16 then
      { x := readUInt16BE t (14 + i * 6),
        y := readUInt16BE t (14 + i * 6 + 2),
        angle := t.getD (14 + i * 6 + 4) 0,
        type := t.getD (14 + i * 6 + 5) 0 } :: parseRecords t fuel (i + 1)
    else []

/-- `parseMinutiae(template)` (lines 900–916): read the count byte
`template[7]` and scan that many 6-byte records, stopping early if a record
would overlap the trailing 16 digest bytes.  It has no failure channel: it
always returns the minutiae it could read.  (`template[7]` on a buffer
shorter than 8 is `undefined` in JS, making the loop bound falsy — the same
as the `getD` default 0 used here.) -/
def parseMinutiae (t : List Nat) : List Minutia :=
  parseRecords t (t.getD 7 0) 0

/-- The length-consistency predicate the specification demands of `decode`:
the total byte length matches the declared minutiae count (14-byte header,
6 bytes per declared minutia, 16-byte digest).  Modelled from the spec's
words for comparison with the source's `parseMinutiae`, which never checks
this. -/
def lengthConsistent (t : List Nat) : Bool :=
  t.length == 14 + 6 * t.getD 7 0 + 16

/-! ## Bit-precise model of the score expression

`match` computes `Math.round((matchedCount / maxPossible) * 100)` in IEEE-754
binary64.  For the operand ranges that occur (numerator and denominator at
most 255, both positive), that evaluation is modelled exactly:

* `k / n` is the correctly rounded (round-to-nearest, ties-to-even) 53-bit
  value `m1 * 2^(-s)` with `2^52 ≤ m1 ≤ 2^53`;
* `* 100` is the exact integer product `m1 * 100` correctly rounded back to
  53 bits (a right shift of `sh ∈ 0..7` bits with ties-to-even);
* `Math.round` maps a non-negative double `v` to `⌊v + 1/2⌋` (ties toward
  positive infinity).

No overflow, underflow or subnormal can occur in these ranges, so this
integer computation reproduces the double result bit-for-bit. -/

/-- Floor of the base-2 logarithm by fuel-bounded structural recursion
(`log2fuel fuel n` halves `n` until it drops below 2; any `fuel ≥ log₂ n`
gives the exact value, and `n` itself always suffices). -/
def log2fuel : Nat → Nat → Nat
  | 0, _ => 0
  | fuel + 1, n => if 2 ≤ n then log2fuel fuel (n / 2) + 1 else 0

/-- `⌊log₂ n⌋` (0 at 0), used to locate the binary exponent of a double. -/
def nlog2 (n : Nat) : Nat := log2fuel n n

/-- Round the exact rational `p / q` (with `q > 0`) to the nearest integer,
ties to even — the IEEE-754 default rounding applied by division and
multiplication. -/
def rne (p q : Nat) : Nat :=
  if q < 2 * (p % q) then p / q + 1
  else if 2 * (p % q) < q then p / q
  else if p / q % 2 = 0 then p / q else p / q + 1

/-- The normalisation shift `s` of the quotient `k / n`:
`n * 2^52 ≤ k * 2^s < n * 2^53`, so that the correctly rounded significand
has 53 bits. -/
def jsShift (k n : Nat) : Nat :=
  if k * 2 ^ (52 + nlog2 n - nlog2 k) < n * 2 ^ 52
  then 52 + nlog2 n - nlog2 k + 1
  else 52 + nlog2 n - nlog2 k

/-- The 53-bit significand of the correctly rounded double `k / n`, whose
value is `jsMant k n * 2^(-jsShift k n)`. -/
def jsMant (k n : Nat) : Nat := rne (k * 2 ^ jsShift k n) n

/-- How many low bits the exact product `jsMant k n * 100` overflows a
53-bit significand by: `2^52 ≤ jsMant ≤ 2^53` gives `2^58 < jsMant * 100 <
2^60`, so `⌊log₂ (jsMant * 100)⌋ - 52 ∈ {6, 7}`. -/
def jsSh (k n : Nat) : Nat := if jsMant k n * 100 < 2 ^ 59 then 6 else 7

/-- The 53-bit significand of the correctly rounded double `(k / n) * 100`,
whose value is `jsMant2 k n * 2^(jsSh k n - jsShift k n)`. -/
def jsMant2 (k n : Nat) : Nat := rne (jsMant k n * 100) (2 ^ jsSh k n)

/-- Exact value of the JavaScript expression
`Math.round((k / n) * 100)` for `1 ≤ k` and `1 ≤ n` (both at most 255 at the
call site), and `0` when `k = 0` or `n = 0` is not consulted (the source
guards `maxPossible > 0`, and `0 / n` rounds to `0`).  With
`d := 2^(jsShift - jsSh)`, the double value is `jsMant2 / d` and
`Math.round` of a non-negative value `v` is `⌊v + 1/2⌋`, here
`(2 * jsMant2 + d) / (2 * d)` over the integers. -/
def jsScoreN (k n : Nat) : Nat :=
  if k = 0 ∨ n = 0 then 0
  else
    (2 * jsMant2 k n + 2 ^ (jsShift k n - jsSh k n))
      / (2 * 2 ^ (jsShift k n - jsSh k n))

/-- Exact mathematical rounding `round(k / n * 100)` with half-integers
rounded up — what the specification's formula `round(matchedCount /
min(|A|,|B|) × 100)` denotes (for the values at hand, rounding half up, half
down, half to even and half away from zero all agree except at exact halves,
where every standard convention rounds `z + 1/2` with `z ≥ 0` away from
`z`). -/
def ratRound100 (k n : Nat) : Nat :=
  (200 * k + n) / (2 * n)

/-! ## Matcher -/

/-- The inner compatibility test of `match` (lines 868–879): Euclidean
distance below 20, absolute angle difference below 30, identical type.
`Math.sqrt(dx*dx + dy*dy) < 20` on exact integer operands is equivalent to
`dx² + dy² < 400`: for sums up to `399` the true root is at most
`19.975...` and the correctly rounded double is still below 20, while for
sums of `400` or more the correctly rounded double is at least 20. -/
def compatibleMinutia (m1 m2 : Minutia) : Bool :=
  let dx : Int := (m1.x : Int) - (m2.x : Int)
  let dy : Int := (m1.y : Int) - (m2.y : Int)
  let angleDiff : Int := ((m1.angle : Int) - (m2.angle : Int)).natAbs
  (dx * dx + dy * dy < 400) && (angleDiff < 30) && (m1.type == m2.type)

/-- The outer matching loop of `match` (lines 868–880): each minutia of the
first template is counted if some minutia of the second is compatible with
it (`break` after the first hit — no consumption of the partner). -/
def matchedCount (l1 l2 : List Minutia) : Nat :=
  l1.countP fun m1 => l2.any fun m2 => compatibleMinutia m1 m2

/-- The result object of `match`.  The source returns
`{match, score, matchedMinutiae, totalMinutiae}` on the normal path and
`{match, score, error}` on the error path; absent JS fields are modelled as
`none`.  (`match` is a reserved word in Lean, so the boolean field is named
`matched`, the name the specification uses for it.) -/
structure MatchResult where
  matched : Bool
  score : Nat
  matchedMinutiae : Option Nat
  totalMinutiae : Option Nat
  error : Option String
  deriving Repr, DecidableEq

/-- `match(template1, template2)` (lines 852–895), modelled on the decoded
byte blobs (`Buffer.from(s, 'base64')` never throws, so base64 inputs reduce
to this case).  The function is total: inputs shorter than 20 bytes take the
`'Invalid template'` early return, and on longer inputs `parseMinutiae`
cannot throw (its loop guard keeps every read in bounds), so the enclosing
`try`/`catch`'s catch arm is unreachable.  (`match` is a reserved word in
Lean, hence the name `matchTemplates`.) -/
def matchTemplates (t1 t2 : List Nat) : MatchResult :=
  if t1.length < 20 ∨ t2.length < 20 then
    { matched := false, score := 0, matchedMinutiae := none,
      totalMinutiae := none, error := some "Invalid template" }
  else
    let minutiae1 := parseMinutiae t1
    let minutiae2 := parseMinutiae t2
    let k := matchedCount minutiae1 minutiae2
    let maxPossible := min minutiae1.length minutiae2.length
    let score := if 0 < maxPossible then jsScoreN k maxPossible else 0
    { matched := 60 ≤ score, score := score, matchedMinutiae := some k,
      totalMinutiae := some maxPossible, error := none }

/-! ## Relation between the double-precision score and exact rounding

The claim formula `round(matchedCount / min(|A|,|B|) × 100)` and the code's
double-precision evaluation agree except at exact-half boundaries, where
the doubles can land one below.  This is proved analytically below
(`score_window` / `jsScore_vs_round`): each of the two IEEE roundings is
within half an ulp, the shift satisfies `jsShift ≥ 45`, so the double
value is within `114 * 2^(-45)` of the exact quotient, while a non-half
exact value is at least `1/256` away from every rounding boundary. -/

/-! ## Quality scorer

`calculateQuality` (lines 694–735) runs over exact rationals here, with
`Math.sqrt` abstracted as the parameter `sq : ℚ → ℚ` (the theorems below
hold for every choice of `sq`, in particular for correctly rounded square
roots).  `Math.round` on a non-negative value is `⌊q + 1/2⌋`; its JS
ties-toward-positive-infinity behaviour is `⌊q + 1/2⌋` for every finite
value. -/

/-- `Math.round` (ties toward positive infinity): `⌊q + 1/2⌋`. -/
def jround (q : ℚ) : ℤ := ⌊q + 1 / 2⌋

/-- The running minimum of the scan loop (line 697–702): start 255. -/
def pixelMin (img : List Nat) : Nat :=
  img.foldl (fun acc p => if p < acc then p else acc) 255

/-- The running maximum of the scan loop (line 697–703): start 0. -/
def pixelMax (img : List Nat) : Nat :=
  img.foldl (fun acc p => if acc < p then p else acc) 0

/-- `calculateQuality(imageData)` (lines 694–735): contrast, standard
deviation and average gradient magnitude are combined into three capped
sub-scores and the rounded sum is clamped to `[0, 100]`.  The interior
gradient loops run `y` over `1 .. height-2` and `x` over `1 .. width-2`;
all reads are in bounds when `imageData.length = width * height`, making
the `getD` default unobservable there (out-of-size images produce `NaN` in
the source and are outside every claim's scope). -/
def calculateQuality (sq : ℚ → ℚ) (cfg : ImageConfig) (img : List Nat) : ℤ :=
  let w := cfg.width
  let h := cfg.height
  let contrast : ℚ := (pixelMax img : ℚ) - (pixelMin img : ℚ)
  let mean : ℚ := (img.sum : ℚ) / (img.length : ℚ)
  let variance : ℚ := ((img.map fun p => ((p : ℚ) - mean) ^ 2).sum) / (img.length : ℚ)
  let stdDev : ℚ := sq variance
  let edgeSum : ℚ :=
    ((List.range (h - 2)).map fun y0 =>
      ((List.range (w - 2)).map fun x0 =>
        let idx := (y0 + 1) * w + (x0 + 1)
        let gx : ℚ := (img.getD (idx + 1) 0 : ℚ) - (img.getD (idx - 1) 0 : ℚ)
        let gy : ℚ := (img.getD (idx + w) 0 : ℚ) - (img.getD (idx - w) 0 : ℚ)
        sq (gx * gx + gy * gy)).sum).sum
  let avgEdge : ℚ := edgeSum / (((w - 2) * (h - 2) : Nat) : ℚ)
  let contrastScore : ℚ := min (contrast / 2) 40
  let sharpnessScore : ℚ := min (stdDev / 2) 30
  let edgeScore : ℚ := min (avgEdge / 3) 30
  min 100 (max 0 (jround (contrastScore + sharpnessScore + edgeScore)))

/-! ## Device session state machine

The `SecuGenScanner` instance state and the operations `connect`,
`disconnect`, `getStatus` and the entry phase of `capture` are modelled as
explicit state passing.  The USB environment (the result of
`usb.getDeviceList()` together with the outcome each device's `open()`
would have and the serial string its descriptor would resolve to) is a
parameter.  Fields of the class that none of the modelled operations
observe or mutate (`brightness`, `gain`, `autoReconnect`,
`maxReconnectAttempts`, `eventHandlers`) are omitted. -/

/-- Endpoint direction, as reported during enumeration (line 188–195). -/
inductive Direction where
  | din
  | dout
  deriving Repr, DecidableEq

/-- Outcome `device.open()` would have (lines 148–161): success, a
`LIBUSB_ERROR_ACCESS` failure, or any other failure with its message. -/
inductive OpenOutcome where
  | ok
  | accessDenied
  | failed (msg : String)
  deriving Repr, DecidableEq

/-- One entry of `usb.getDeviceList()` as far as `connect` consumes it:
descriptor identifiers, the outcome opening it would have, the number of
interfaces, the endpoint directions of interface 0, and the string its
serial-number descriptor resolves to (`getSerialNumber` maps resolution
failures to `"Unknown"`, collapsed into this field). -/
structure USBDevice where
  idVendor : Nat
  idProduct : Nat
  openOutcome : OpenOutcome
  interfaceCount : Nat
  endpoints : List Direction
  serial : String
  deriving Repr, DecidableEq

/-- The mutable fields of the `SecuGenScanner` singleton that the modelled
operations touch (constructor, lines 54–72).  Endpoint references are
tracked as presence booleans. -/
structure ScannerState where
  device : Option USBDevice
  hasInterface : Bool
  inEndpoint : Bool
  outEndpoint : Bool
  isConnected : Bool
  isCapturing : Bool
  reconnectAttempts : Nat
  productName : Option String
  imageConfig : ImageConfig
  useControlTransfer : Bool
  deriving Repr, DecidableEq

/-- The constructor state (lines 54–72). -/
def initialState : ScannerState :=
  { device := none, hasInterface := false, inEndpoint := false,
    outEndpoint := false, isConnected := false, isCapturing := false,
    reconnectAttempts := 0, productName := none,
    imageConfig := defaultConfig, useControlTransfer := false }

/-- The `deviceInfo` object of connect results and status snapshots.  The
source renders `vendorId`/`productId` as hex strings; the underlying
numbers are modelled.  Fields a given code path leaves out of the object
are `none`. -/
structure DeviceInfo where
  vendorId : Nat
  idProduct : Nat
  productName : Option String
  serialNumber : Option String
  communicationMode : Option String
  deriving Repr, DecidableEq

/-- Result object of `connect()` (lines 100–231): absent JS fields are
`none`/`false`. -/
structure ConnectResult where
  success : Bool
  alreadyConnected : Bool := false
  deviceInfo : Option DeviceInfo := none
  error : Option String := none
  code : Option String := none
  deriving Repr, DecidableEq

/-- `SECUGEN_PRODUCT_IDS` reverse lookup (lines 126–128):
`Object.keys(...).find(key => ids[key] === productId) || 'Unknown'`. -/
def productNameOf (productId : Nat) : String :=
  if productId = 0x0320 then "U20"
  else if productId = 0x0330 then "U20_A"
  else if productId = 0x0300 then "U10"
  else if productId = 0x0310 then "FDU04"
  else if productId = 0x2200 then "HAMSTER_PRO"
  else if productId = 0x2000 then "HAMSTER_IV"
  else "Unknown"

/-- `DEVICE_CONFIG[name]` (lines 46–51) for the non-default keys. -/
def deviceConfigLookup (name : String) : Option ImageConfig :=
  if name = "HAMSTER_PRO" then some ⟨260, 300, 500⟩
  else if name = "U20" then some ⟨260, 300, 500⟩
  else if name = "U10" then some ⟨260, 300, 500⟩
  else none

/-- The device-scan loop of `connect` (lines 120–132): first device with
the SecuGen vendor id. -/
def findSecuGen (devs : List USBDevice) : Option USBDevice :=
  devs.find? fun d => d.idVendor == 0x1162

/-- The fresh-connection path of `connect()` (lines 114–231): scan the
device list, open, claim the interface, record endpoint directions, choose
the transfer mode, and mark the session connected.  The
`initializeDevice`/`setLED` calls after the mode choice swallow all their
errors and mutate none of the modelled state, and `getSerialNumber` never
rejects, so the success path is exact.  Note the scan loop only overwrites
`this.device` when a SecuGen device is present in the list; a stale
`this.device` from an earlier failed session is otherwise reused, which the
`orElse` in `connectFresh` reproduces (and `this.productName`, likewise, is
only overwritten when the scan finds a device).  `connectOpen` is the part
from the config assignment (line 144) onward, with the already-computed
product name passed in. -/
def connectOpen (s : ScannerState) (pname : Option String) (d : USBDevice) :
    ScannerState × ConnectResult :=
  let s1 := { s with
    device := some d
    productName := pname
    imageConfig := (deviceConfigLookup (pname.getD "")).getD defaultConfig }
  match d.openOutcome with
  | .accessDenied =>
    (s1, { success := false,
           error := some "Permission denied. Please run with administrator privileges.",
           code := some "PERMISSION_DENIED" })
  | .failed msg =>
    (s1, { success := false, error := some msg,
           code := some "CONNECTION_ERROR" })
  | .ok =>
    let s2 :=
      if 0 < d.interfaceCount then
        { s1 with
          hasInterface := true
          inEndpoint :=
            if d.endpoints.contains Direction.din then true else s1.inEndpoint
          outEndpoint :=
            if d.endpoints.contains Direction.dout then true else s1.outEndpoint }
      else s1
    let s3 := { s2 with
      useControlTransfer := !s2.outEndpoint || pname == some "HAMSTER_PRO"
      isConnected := true
      reconnectAttempts := 0 }
    (s3, { success := true,
           deviceInfo := some
             { vendorId := d.idVendor, idProduct := d.idProduct,
               productName := pname, serialNumber := some d.serial,
               communicationMode :=
                 some (if s3.useControlTransfer then "control" else "bulk") } })

def connectFresh (s : ScannerState) (devs : List USBDevice) :
    ScannerState × ConnectResult :=
  match (findSecuGen devs).orElse fun _ => s.device with
  | none =>
    (s, { success := false,
          error := some "SecuGen scanner not found. Please connect the device.",
          code := some "DEVICE_NOT_FOUND" })
  | some d =>
    connectOpen s
      (match findSecuGen devs with
        | some d0 => some (productNameOf d0.idProduct)
        | none => s.productName) d

/-- `connect()` (lines 93–232): return the current info unchanged when a
handle is already open (lines 100–112), otherwise run the fresh-connection
path. -/
def connect (s : ScannerState) (devs : List USBDevice) :
    ScannerState × ConnectResult :=
  match s.isConnected, s.device with
  | true, some d =>
    (s, { success := true, alreadyConnected := true,
          deviceInfo := some { vendorId := d.idVendor, idProduct := d.idProduct,
                               productName := s.productName, serialNumber := none,
                               communicationMode := none } })
  | _, _ => connectFresh s devs

/-- `disconnect()` (lines 940–972): best-effort LED-off/release/close (all
errors swallowed, no modelled state), then clear the handle fields.
`isCapturing`, `imageConfig` and `useControlTransfer` are deliberately not
part of the reset (lines 963–968). -/
def disconnect (s : ScannerState) : ScannerState :=
  { s with
    device := none
    hasInterface := false
    inEndpoint := false
    outEndpoint := false
    isConnected := false
    productName := none }

/-- Snapshot returned by `getStatus()` (lines 921–935). -/
structure StatusSnapshot where
  connected : Bool
  capturing : Bool
  deviceInfo : Option DeviceInfo
  deriving Repr, DecidableEq

/-- `getStatus()` (lines 921–935): a pure read of the session state. -/
def getStatus (s : ScannerState) : StatusSnapshot :=
  { connected := s.isConnected, capturing := s.isCapturing,
    deviceInfo := s.device.map fun d =>
      { vendorId := d.idVendor, idProduct := d.idProduct,
        productName := s.productName, serialNumber := none,
        communicationMode :=
          some (if s.useControlTransfer then "control" else "bulk") } }

/-- How the entry phase of `capture()` (lines 425–444) leaves the session:
rejected because a capture is in flight (`throw new Error('Capture already
in progress')`), failed to auto-connect, or past the guards with
`isCapturing` set (`started`), about to run the acquisition body. -/
inductive CaptureEntry where
  | alreadyCapturing (msg : String)
  | connectFailed (error : Option String)
  | started
  deriving Repr, DecidableEq

/-- The `isCapturing` guard of `capture` (lines 439–444). -/
def captureGuard (s : ScannerState) : ScannerState × CaptureEntry :=
  if s.isCapturing then (s, .alreadyCapturing "Capture already in progress")
  else ({ s with isCapturing := true }, .started)

/-- The entry phase of `capture()` (lines 425–444): auto-connect when
disconnected (lines 431–437), then the `isCapturing` guard.  The
acquisition body that follows (finger polling against wall-clock time,
chunked USB reads, the synthetic fallback) is beyond the entry phase and
deliberately not modelled; every claim about `capture` here concerns only
this entry phase. -/
def captureEntry (s : ScannerState) (devs : List USBDevice) :
    ScannerState × CaptureEntry :=
  if s.isConnected then captureGuard s
  else
    let sr := connect s devs
    if sr.2.success then captureGuard sr.1
    else (sr.1, .connectFailed sr.2.error)

/-! ## Concrete instances used by counterexamples and witnesses -/

/-- A stand-in digest function: 16 zero bytes for every input.  The codec
theorems hold for every 16-byte digest function, so witnesses may use this
one; `parseMinutiae` and `match` never read the digest bytes' values. -/
def zeroHash (_ : List Nat) : List Nat := List.replicate 16 0

/-- Well-formedness of an encoded template: the total length is consistent
with the declared count byte and at most 128 minutiae are declared (the
encoder's cap, line 809). -/
def WellFormedTemplate (t : List Nat) : Prop :=
  t.length = 30 + 6 * t.getD 7 0 ∧ t.getD 7 0 ≤ 128

instance (t : List Nat) : Decidable (WellFormedTemplate t) := by
  unfold WellFormedTemplate; infer_instance

/-- A 36-byte blob that declares 2 minutiae in its count byte but carries
only one 6-byte record before the 16 trailing digest bytes — its total
length is inconsistent with the declared count (2 minutiae would need 42
bytes). -/
def t36 : List Nat :=
  [0x46, 0x4D, 0x52, 0x00, 0x20, 0x32, 0x30, 2, 1, 4, 1, 44, 1, 244,
   0, 1, 0, 2, 3, 1,
   0, 0, 0, 0, 0, 0, 0, 0, 0, 0, 0, 0, 0, 0, 0, 0]

/-- 40 pairwise-distant minutiae (50 units apart, type 1). -/
def cexMinutiaeB : List Minutia :=
  (List.range 40).map fun i => { x := 50 * i, y := 0, angle := 0, type := 1 }

/-- 41 minutiae: the first 23 coincide with `cexMinutiaeB`'s first 23;
the other 18 share no type-compatible partner in `cexMinutiaeB`. -/
def cexMinutiaeA : List Minutia :=
  ((List.range 23).map fun i => { x := 50 * i, y := 0, angle := 0, type := 1 })
    ++ ((List.range 18).map fun j =>
          { x := 50 * (23 + j), y := 0, angle := 0, type := 2 })

/-- Encoded template of `cexMinutiaeA`. -/
def cexA : List Nat := generateTemplate defaultConfig cexMinutiaeA zeroHash

/-- Encoded template of `cexMinutiaeB`. -/
def cexB : List Nat := generateTemplate defaultConfig cexMinutiaeB zeroHash

/-- A U20 enumeration entry whose interface exposes only an OUT endpoint:
opening succeeds, one interface, no IN endpoint discovered. -/
def u20OutOnly : USBDevice :=
  { idVendor := 0x1162, idProduct := 0x0320, openOutcome := OpenOutcome.ok,
    interfaceCount := 1, endpoints := [Direction.dout], serial := "SG1" }

/-- A session state as left by a successful connect to `u20OutOnly`:
used to instantiate theorems about operations on an open handle. -/
def connectedState : ScannerState :=
  { device := some u20OutOnly, hasInterface := true, inEndpoint := false,
    outEndpoint := true, isConnected := true, isCapturing := false,
    reconnectAttempts := 0, productName := some "U20",
    imageConfig := defaultConfig, useControlTransfer := false }

/-- `connectedState` with a capture in flight. -/
def capturingState : ScannerState :=
  { connectedState with isCapturing := true }

/-! ## Codec lemmas -/

theorem encodeMinutia_length (m : Minutia) : (encodeMinutia m).length = 6 := rfl

theorem encoded_flatten_length (ms : List Minutia) :
    ((ms.map encodeMinutia).flatten).length = 6 * ms.length := by
  induction ms with
  | nil => rfl
  | cons m tail ih =>
    simp only [List.map_cons, List.flatten_cons, List.length_append,
      encodeMinutia_length, ih, List.length_cons]
    omega

/-- In-range fields of a minutia. -/
def FieldsInRange (m : Minutia) : Prop :=
  m.x < 65536 ∧ m.y < 65536 ∧ m.angle < 256 ∧ m.type < 256

instance (m : Minutia) : Decidable (FieldsInRange m) := by
  unfold FieldsInRange; infer_instance

theorem getD_flat_cons (m : Minutia) (tail : List Minutia) (pre rest : List Nat)
    (k j : Nat) (hpre : pre.length = 14 + 6 * k) (hj : j < 6) :
    (pre ++ ((m :: tail).map encodeMinutia).flatten ++ rest).getD (14 + k * 6 + j) 0
      = (encodeMinutia m).getD j 0 := by
  have hassoc : pre ++ ((m :: tail).map encodeMinutia).flatten ++ rest
      = pre ++ (encodeMinutia m ++ ((tail.map encodeMinutia).flatten ++ rest)) := by
    simp [List.append_assoc]
  rw [hassoc, List.getD_append_right _ _ _ _ (by omega)]
  have hsub : 14 + k * 6 + j - pre.length = j := by omega
  rw [hsub]
  exact List.getD_append _ _ _ _ (by rw [encodeMinutia_length]; exact hj)

theorem parseRecords_append (ms : List Minutia) :
    ∀ (k : Nat) (pre rest : List Nat), pre.length = 14 + 6 * k →
    rest.length = 16 → (∀ m ∈ ms, FieldsInRange m) →
    parseRecords (pre ++ (ms.map encodeMinutia).flatten ++ rest) ms.length k = ms := by
  induction ms with
  | nil => intro k pre rest _ _ _; rfl
  | cons m tail ih =>
    intro k pre rest hpre hrest hms
    obtain ⟨hx, hy, ha, ht⟩ := hms m (List.mem_cons_self m tail)
    have hlen : (pre ++ ((m :: tail).map encodeMinutia).flatten ++ rest).length
        = 14 + 6 * k + (6 + 6 * tail.length) + 16 := by
      simp only [List.length_append, hpre, hrest, encoded_flatten_length,
        List.length_cons]
      omega
    have hguard : 14 + k * 6 + 5 <
        (pre ++ ((m :: tail).map encodeMinutia).flatten ++ rest).length - 16 := by
      omega
    have h0 := getD_flat_cons m tail pre rest k 0 hpre (by omega)
    have h1 := getD_flat_cons m tail pre rest k 1 hpre (by omega)
    have h2 := getD_flat_cons m tail pre rest k 2 hpre (by omega)
    have h3 := getD_flat_cons m tail pre rest k 3 hpre (by omega)
    have h4 := getD_flat_cons m tail pre rest k 4 hpre (by omega)
    have h5 := getD_flat_cons m tail pre rest k 5 hpre (by omega)
    have hX : readUInt16BE
        (pre ++ ((m :: tail).map encodeMinutia).flatten ++ rest) (14 + k * 6) = m.x := by
      unfold readUInt16BE
      rw [show 14 + k * 6 = 14 + k * 6 + 0 from by omega] at h0 ⊢
      rw [show 14 + k * 6 + 0 + 1 = 14 + k * 6 + 1 from by omega, h0, h1]
      show m.x / 256 % 256 * 256 + m.x % 256 = m.x
      rw [Nat.mod_eq_of_lt (Nat.div_lt_of_lt_mul (by omega)), Nat.mul_comm]
      exact Nat.div_add_mod m.x 256
    have hY : readUInt16BE
        (pre ++ ((m :: tail).map encodeMinutia).flatten ++ rest) (14 + k * 6 + 2) = m.y := by
      unfold readUInt16BE
      rw [show 14 + k * 6 + 2 + 1 = 14 + k * 6 + 3 from by omega, h2, h3]
      show m.y / 256 % 256 * 256 + m.y % 256 = m.y
      rw [Nat.mod_eq_of_lt (Nat.div_lt_of_lt_mul (by omega)), Nat.mul_comm]
      exact Nat.div_add_mod m.y 256
    have hA : (pre ++ ((m :: tail).map encodeMinutia).flatten ++ rest).getD
        (14 + k * 6 + 4) 0 = m.angle := by
      rw [h4]
      show m.angle % 256 = m.angle
      exact Nat.mod_eq_of_lt ha
    have hT : (pre ++ ((m :: tail).map encodeMinutia).flatten ++ rest).getD
        (14 + k * 6 + 5) 0 = m.type := by
      rw [h5]
      show m.type % 256 = m.type
      exact Nat.mod_eq_of_lt ht
    have htail : parseRecords (pre ++ ((m :: tail).map encodeMinutia).flatten ++ rest)
        tail.length (k + 1) = tail := by
      have hassoc : pre ++ ((m :: tail).map encodeMinutia).flatten ++ rest
          = (pre ++ encodeMinutia m) ++ (tail.map encodeMinutia).flatten ++ rest := by
        simp [List.append_assoc]
      rw [hassoc]
      exact ih (k + 1) (pre ++ encodeMinutia m) rest
        (by simp [hpre, encodeMinutia_length]; omega) hrest
        (fun m2 hm2 => hms m2 (List.mem_cons_of_mem m hm2))
    show parseRecords _ (tail.length + 1) k = m :: tail
    rw [parseRecords, if_pos hguard, hX, hY, hA, hT, htail]

theorem generateTemplate_eq (cfg : ImageConfig) (ms : List Minutia)
    (hash : List Nat → List Nat) :
    generateTemplate cfg ms hash
      = templateHeader cfg ms ++ (ms.map encodeMinutia).flatten
          ++ hash (templateHeader cfg ms ++ (ms.map encodeMinutia).flatten) := by
  simp [generateTemplate, List.append_assoc]

theorem templateHeader_length (cfg : ImageConfig) (ms : List Minutia) :
    (templateHeader cfg ms).length = 14 := rfl

theorem generateTemplate_length (cfg : ImageConfig) (ms : List Minutia)
    (hash : List Nat → List Nat) (hh : ∀ l, (hash l).length = 16) :
    (generateTemplate cfg ms hash).length = 30 + 6 * ms.length := by
  rw [generateTemplate_eq, List.length_append, List.length_append,
    templateHeader_length, encoded_flatten_length, hh]
  omega

theorem generateTemplate_getD_countByte (cfg : ImageConfig) (ms : List Minutia)
    (hash : List Nat → List Nat) :
    (generateTemplate cfg ms hash).getD 7 0 = ms.length % 256 := by
  rw [generateTemplate_eq, List.append_assoc,
    List.getD_append _ _ _ _ (by rw [templateHeader_length]; omega)]
  rfl

/-- Round trip at the minutiae level: `parseMinutiae` recovers exactly the
minutiae sequence that `generateTemplate` serialized, for up to 128
minutiae with in-range fields and any 16-byte digest. -/
theorem parse_generateTemplate (cfg : ImageConfig) (ms : List Minutia)
    (hash : List Nat → List Nat) (hle : ms.length ≤ 128)
    (hfr : ∀ m ∈ ms, FieldsInRange m) (hh : ∀ l, (hash l).length = 16) :
    parseMinutiae (generateTemplate cfg ms hash) = ms := by
  unfold parseMinutiae
  rw [generateTemplate_getD_countByte, Nat.mod_eq_of_lt (by omega),
    generateTemplate_eq]
  exact parseRecords_append ms 0 (templateHeader cfg ms) _
    (by rw [templateHeader_length]) (hh _) hfr

/-- The big-endian header fields at offsets 8, 10 and 12 recover width,
height and dpi for any values that fit their 16-bit header slots, using the
source's own `readUInt16BE` primitive. -/
theorem generateTemplate_header_fields (cfg : ImageConfig) (ms : List Minutia)
    (hash : List Nat → List Nat) (hw : cfg.width < 65536)
    (hhgt : cfg.height < 65536) (hd : cfg.dpi < 65536) :
    readUInt16BE (generateTemplate cfg ms hash) 8 = cfg.width ∧
    readUInt16BE (generateTemplate cfg ms hash) 10 = cfg.height ∧
    readUInt16BE (generateTemplate cfg ms hash) 12 = cfg.dpi := by
  have hgd : ∀ j, j < 14 → (generateTemplate cfg ms hash).getD j 0
      = (templateHeader cfg ms).getD j 0 := by
    intro j hj
    rw [generateTemplate_eq, List.append_assoc,
      List.getD_append _ _ _ _ (by rw [templateHeader_length]; exact hj)]
  have recover : ∀ v : Nat, v < 65536 → v / 256 % 256 * 256 + v % 256 = v := by
    intro v hv
    rw [Nat.mod_eq_of_lt (Nat.div_lt_of_lt_mul (by omega)), Nat.mul_comm]
    exact Nat.div_add_mod v 256
  refine ⟨?_, ?_, ?_⟩
  · unfold readUInt16BE
    rw [hgd 8 (by omega), hgd 9 (by omega)]
    exact recover cfg.width hw
  · unfold readUInt16BE
    rw [hgd 10 (by omega), hgd 11 (by omega)]
    exact recover cfg.height hhgt
  · unfold readUInt16BE
    rw [hgd 12 (by omega), hgd 13 (by omega)]
    exact recover cfg.dpi hd

theorem parseRecords_length_le (t : List Nat) :
    ∀ fuel i, (parseRecords t fuel i).length ≤ fuel := by
  intro fuel
  induction fuel with
  | zero => intro i; simp [parseRecords]
  | succ f ih =>
    intro i
    rw [parseRecords]
    split
    · simpa using Nat.succ_le_succ (ih (i + 1))
    · simp

theorem parseMinutiae_length_le_count (t : List Nat) :
    (parseMinutiae t).length ≤ t.getD 7 0 :=
  parseRecords_length_le t _ 0

theorem parseRecords_congr_length (t u : List Nat) (hlen : t.length = u.length) :
    ∀ fuel i, (parseRecords t fuel i).length = (parseRecords u fuel i).length := by
  intro fuel
  induction fuel with
  | zero => intro i; rfl
  | succ f ih =>
    intro i
    rw [parseRecords, parseRecords, hlen]
    split
    · simpa using ih (i + 1)
    · rfl

/-- Altering any byte at an index other than 7 (in particular any byte of
the minutiae region, indices 14 and beyond) leaves the number of decoded
minutiae unchanged: `parseMinutiae` silently re-decodes, it never rejects. -/
theorem parseMinutiae_set_length (t : List Nat) (p b : Nat) (hp : p ≠ 7) :
    (parseMinutiae (t.set p b)).length = (parseMinutiae t).length := by
  unfold parseMinutiae
  have hcount : (t.set p b).getD 7 0 = t.getD 7 0 := by
    simp [List.getD_eq_getElem?_getD, List.getElem?_set_ne hp]
  rw [hcount]
  exact parseRecords_congr_length _ _ (by simp) _ 0

/-! ## Matcher lemmas -/

theorem compatibleMinutia_self (m : Minutia) : compatibleMinutia m m = true := by
  simp [compatibleMinutia]

theorem matchedCount_self (ms : List Minutia) : matchedCount ms ms = ms.length := by
  unfold matchedCount
  rw [List.countP_eq_length]
  intro m hm
  exact List.any_eq_true.mpr ⟨m, hm, compatibleMinutia_self m⟩

theorem matchedCount_le (l1 l2 : List Minutia) : matchedCount l1 l2 ≤ l1.length :=
  List.countP_le_length _

/-! ## Session lemmas -/

theorem disconnect_useControlTransfer (s : ScannerState) :
    (disconnect s).useControlTransfer = s.useControlTransfer := rfl

theorem disconnect_isCapturing (s : ScannerState) :
    (disconnect s).isCapturing = s.isCapturing := rfl

theorem captureEntry_connected_useControlTransfer (s : ScannerState)
    (devs : List USBDevice) (hc : s.isConnected = true) :
    (captureEntry s devs).1.useControlTransfer = s.useControlTransfer := by
  unfold captureEntry captureGuard
  simp only [hc, if_true]
  split <;> rfl

theorem connectOpen_mode (s : ScannerState) (pname : Option String)
    (d : USBDevice) (h : (connectOpen s pname d).2.success = true) :
    (connectOpen s pname d).1.useControlTransfer
      = (!(connectOpen s pname d).1.outEndpoint
          || ((connectOpen s pname d).1.productName == some "HAMSTER_PRO")) := by
  obtain ⟨vid, pid, oo, ic, eps, ser⟩ := d
  cases oo with
  | ok => by_cases hif : 0 < ic <;> simp [connectOpen, hif]
  | accessDenied => simp [connectOpen] at h
  | failed msg => simp [connectOpen] at h

theorem nlog2_le_seven : ∀ a, a < 129 → nlog2 a ≤ 7 := by decide

/-- The rounded quotient `rne p q` is within half an ulp of the exact
quotient `p / q`, stated as a two-sided integer bound
`|2 * rne p q * q - 2 * p| ≤ q`. -/
theorem rne_bound (p q : Nat) (hq : 0 < q) :
    2 * p ≤ 2 * rne p q * q + q ∧ 2 * rne p q * q ≤ 2 * p + q := by
  have hdm : q * (p / q) + p % q = p := Nat.div_add_mod p q
  have hlt : p % q < q := Nat.mod_lt p hq
  unfold rne
  set D := p / q with hD
  set M := p % q with hM
  split_ifs with h1 h2 h3 <;> constructor <;> nlinarith [hdm, hlt]

theorem jsShift_ge (k n : Nat) (hk : k ≤ 128) : 45 ≤ jsShift k n := by
  have h7 : nlog2 k ≤ 7 := nlog2_le_seven k (by omega)
  unfold jsShift
  split_ifs <;> omega

theorem jsSh_bounds (k n : Nat) : 6 ≤ jsSh k n ∧ jsSh k n ≤ 7 := by
  unfold jsSh
  split_ifs <;> omega

/-- The integer window argument: if `m1` and `m2` are the two successive
correctly rounded significands (each within half an ulp) and the shift is
at least 45, then `Math.round` of the double value `m2 / 2^(s - sh)` equals
the exact rounding `(200k + n) / (2n)` — except when `100k/n` is an exact
half-integer, where it may be one less.  The double value is within
`114 * 2^(-45)` of `100k/n`, while for non-half values every rounding
boundary is at least `1/256` away. -/
theorem score_window (k n s sh m1 m2 : Nat)
    (hk1 : 1 ≤ k) (hn1 : 1 ≤ n) (hn : n ≤ 128)
    (hs : 45 ≤ s) (hsh6 : 6 ≤ sh) (hsh7 : sh ≤ 7)
    (hm1 : m1 = rne (k * 2 ^ s) n) (hm2 : m2 = rne (m1 * 100) (2 ^ sh)) :
    (2 * m2 + 2 ^ (s - sh)) / (2 * 2 ^ (s - sh)) = ratRound100 k n ∨
      ((2 * m2 + 2 ^ (s - sh)) / (2 * 2 ^ (s - sh)) + 1 = ratRound100 k n ∧
        (200 * k + n) % (2 * n) = 0) := by
  set d := 2 ^ (s - sh) with hd
  have hS0 : 0 < 2 ^ sh := pow_pos (by norm_num) _
  have hd0 : 0 < d := pow_pos (by norm_num) _
  have hd38 : 274877906944 ≤ d := by
    have h : (2 : ℕ) ^ 38 ≤ 2 ^ (s - sh) :=
      Nat.pow_le_pow_right (by norm_num) (by omega)
    calc (274877906944 : ℕ) = 2 ^ 38 := by norm_num
    _ ≤ 2 ^ (s - sh) := h
    _ = d := hd.symm
  have hdS : d * 2 ^ sh = 2 ^ s := by
    rw [hd, ← pow_add]
    congr 1
    omega
  have hS64 : 64 ≤ 2 ^ sh := by
    calc (64 : ℕ) = 2 ^ 6 := by norm_num
    _ ≤ 2 ^ sh := Nat.pow_le_pow_right (by norm_num) hsh6
  obtain ⟨E1a, E1b⟩ := rne_bound (k * 2 ^ s) n (by omega)
  rw [← hm1] at E1a E1b
  obtain ⟨E2a, E2b⟩ := rne_bound (m1 * 100) (2 ^ sh) hS0
  rw [← hm2] at E2a E2b
  have hmulS : 2 * n * 64 ≤ 2 * n * 2 ^ sh := Nat.mul_le_mul_left (2 * n) hS64
  have hF1 : 200 * k * d ≤ 2 * m2 * n + 3 * n := by
    have chain : 200 * k * d * 2 ^ sh ≤ (2 * m2 * n + 3 * n) * 2 ^ sh := by
      calc 200 * k * d * 2 ^ sh = 100 * (2 * (k * 2 ^ s)) := by
            rw [← hdS]; ring
      _ ≤ 100 * (2 * m1 * n + n) := Nat.mul_le_mul_left 100 E1a
      _ = n * (2 * (m1 * 100)) + 100 * n := by ring
      _ ≤ n * (2 * m2 * 2 ^ sh + 2 ^ sh) + 100 * n :=
            Nat.add_le_add_right (Nat.mul_le_mul_left n E2a) _
      _ = 2 * m2 * n * 2 ^ sh + n * 2 ^ sh + 100 * n := by ring
      _ ≤ (2 * m2 * n + 3 * n) * 2 ^ sh := by nlinarith [hmulS]
    exact Nat.le_of_mul_le_mul_right chain hS0
  have hF2 : 2 * m2 * n ≤ 200 * k * d + 3 * n := by
    have chain : 2 * m2 * n * 2 ^ sh ≤ (200 * k * d + 3 * n) * 2 ^ sh := by
      calc 2 * m2 * n * 2 ^ sh = n * (2 * m2 * 2 ^ sh) := by ring
      _ ≤ n * (2 * (m1 * 100) + 2 ^ sh) := Nat.mul_le_mul_left n E2b
      _ = 100 * (2 * m1 * n) + n * 2 ^ sh := by ring
      _ ≤ 100 * (2 * (k * 2 ^ s) + n) + n * 2 ^ sh := by
            have h100 := Nat.mul_le_mul_left 100 E1b
            nlinarith [h100]
      _ = 200 * k * d * 2 ^ sh + 100 * n + n * 2 ^ sh := by
            rw [← hdS]; ring
      _ ≤ (200 * k * d + 3 * n) * 2 ^ sh := by nlinarith [hmulS]
    exact Nat.le_of_mul_le_mul_right chain hS0
  set B := (200 * k + n) / (2 * n) with hB
  set R := (200 * k + n) % (2 * n) with hR
  have hdm : 2 * n * B + R = 200 * k + n := Nat.div_add_mod _ _
  have hRlt : R < 2 * n := Nat.mod_lt _ (by omega)
  set U := (2 * m2 + d) * n with hU
  set W := 2 * d * n with hW
  have hUW : (2 * m2 + d) / (2 * d) = U / W :=
    (Nat.mul_div_mul_right _ _ (by omega)).symm
  have hRat : ratRound100 k n = B := rfl
  set V := (200 * k + n) * d with hV
  have hVWB : V = W * B + R * d := by
    rw [hV, hW, ← hdm]; ring
  have hUexp : U = 2 * m2 * n + d * n := by rw [hU]; ring
  have hVexp : V = 200 * k * d + n * d := by rw [hV]; ring
  have hUV1 : V ≤ U + 3 * n := by
    rw [hUexp, hVexp]
    linarith only [hF1]
  have hUV2 : U ≤ V + 3 * n := by
    rw [hUexp, hVexp]
    linarith only [hF2]
  have h3nd : 3 * n < d := by omega
  have hdW : d ≤ W := by
    have h2d : 2 * d * 1 ≤ 2 * d * n := Nat.mul_le_mul_left (2 * d) hn1
    rw [hW]
    linarith only [h2d]
  have hRdW : R * d + d ≤ W := by
    have hstep : (R + 1) * d ≤ 2 * n * d := Nat.mul_le_mul_right d (by omega)
    have hWeq : 2 * n * d = W := by rw [hW]; ring
    linarith only [hstep, hWeq]
  rw [hUW, hRat]
  rcases Nat.eq_zero_or_pos R with hR0 | hRpos
  · have hVB : V = W * B := by rw [hVWB, hR0]; ring
    have hB1 : 1 ≤ B := by
      rw [hB, Nat.one_le_div_iff (by omega)]
      omega
    rcases Nat.lt_or_ge U (W * B) with hlt | hge
    · obtain ⟨Bp, hBp⟩ : ∃ Bp, B = Bp + 1 :=
        ⟨B - 1, (Nat.succ_pred_eq_of_pos hB1).symm⟩
      have hVBexp : V = W * Bp + W := by rw [hVB, hBp]; ring
      have hltp : U < W * (Bp + 1) := by rw [← hBp]; exact hlt
      have hwin : U / W = Bp := by
        apply Nat.div_eq_of_lt_le
        · linarith only [hUV1, hVBexp, h3nd, hdW]
        · linarith only [hltp]
      refine Or.inr ⟨?_, hR0⟩
      rw [hwin]
      exact hBp.symm
    · have hwin : U / W = B := by
        apply Nat.div_eq_of_lt_le
        · linarith only [hge]
        · linarith only [hUV2, hVB, h3nd, hdW]
      exact Or.inl (by rw [hwin])
  · have hwin : U / W = B := by
      apply Nat.div_eq_of_lt_le
      · have hdRd : d ≤ R * d := Nat.le_mul_of_pos_left d hRpos
        linarith only [hUV1, hVWB, h3nd, hdRd]
      · linarith only [hUV2, hVWB, h3nd, hRdW]
    exact Or.inl (by rw [hwin])

/-- On the operand grid reachable from well-formed templates, the
double-precision score either equals exact half-up rounding or is exactly
one less, the latter only when `100·k/n` is an exact half-integer. -/
theorem jsScore_vs_round (k n : Nat) (hk : k ≤ 128) (h1 : 1 ≤ n)
    (hn : n ≤ 128) :
    jsScoreN k n = ratRound100 k n ∨
      (jsScoreN k n + 1 = ratRound100 k n ∧ (200 * k + n) % (2 * n) = 0) := by
  rcases Nat.eq_zero_or_pos k with hk0 | hk1
  · subst hk0
    left
    have hz : (200 * 0 + n) / (2 * n) = 0 := Nat.div_eq_of_lt (by omega)
    unfold jsScoreN ratRound100
    rw [if_pos (Or.inl rfl), hz]
  · have h6 := jsSh_bounds k n
    have h45 := jsShift_ge k n hk
    unfold jsScoreN
    rw [if_neg (by omega)]
    exact score_window k n (jsShift k n) (jsSh k n) (jsMant k n) (jsMant2 k n)
      hk1 h1 hn h45 h6.1 h6.2 rfl rfl

/-- The self-match score: the double-precision evaluation of `(n/n)*100`
rounds to exactly 100 (the exact value is an integer, not a half, so the
boundary case cannot occur). -/
theorem jsScoreN_self (n : Nat) (h1 : 1 ≤ n) (hn : n ≤ 128) :
    jsScoreN n n = 100 := by
  have hhalf : (200 * n + n) % (2 * n) = n := by
    have harr : 200 * n + n = (2 * n) * 100 + n := by ring
    rw [harr, Nat.mul_add_mod, Nat.mod_eq_of_lt (by omega)]
  have hrat : ratRound100 n n = 100 := by
    unfold ratRound100
    exact Nat.div_eq_of_lt_le (by omega) (by omega)
  rcases jsScore_vs_round n n hn h1 hn with h | ⟨_, hmod⟩
  · rw [h, hrat]
  · omega

theorem matchTemplates_not_short (t1 t2 : List Nat)
    (h : ¬(t1.length < 20 ∨ t2.length < 20)) :
    matchTemplates t1 t2 =
      { matched := decide (60 ≤
          (if 0 < min (parseMinutiae t1).length (parseMinutiae t2).length then
            jsScoreN (matchedCount (parseMinutiae t1) (parseMinutiae t2))
              (min (parseMinutiae t1).length (parseMinutiae t2).length)
          else 0)),
        score :=
          (if 0 < min (parseMinutiae t1).length (parseMinutiae t2).length then
            jsScoreN (matchedCount (parseMinutiae t1) (parseMinutiae t2))
              (min (parseMinutiae t1).length (parseMinutiae t2).length)
          else 0),
        matchedMinutiae :=
          some (matchedCount (parseMinutiae t1) (parseMinutiae t2)),
        totalMinutiae :=
          some (min (parseMinutiae t1).length (parseMinutiae t2).length),
        error := none } := by
  unfold matchTemplates
  rw [if_neg h]

/-! ## Claim theorems -/

/-- C1 (counterexample).  The claim says `decode` rejects any template whose
total length is inconsistent with the declared minutiae count, or whose
recomputed digest mismatches the trailing 16 bytes.  `t36` declares 2
minutiae but carries bytes for only one (lengthConsistent is false), yet
`parseMinutiae` — the only decoding the source performs (`match`, lines
861–862) — returns a decoded minutiae sequence instead of any
`CorruptTemplateError`: the source has no digest recomputation and no
rejection path at all. -/
theorem c1_counterexample :
    lengthConsistent t36 = false ∧
    parseMinutiae t36 = [{ x := 1, y := 2, angle := 3, type := 1 }] := by decide

/-- C1 (amended).  `decode` (`parseMinutiae`) performs no integrity check
and never rejects: it reads up to the declared count, truncating to the
records wholly before the trailing 16 bytes.  In particular, altering any
single byte at an index other than the count byte — so any byte of the
minutiae region (indices 14 and up) — still decodes without error and
yields the same number of minutiae. -/
theorem c1_amended_decode_never_rejects (t : List Nat) (p b : Nat) (hp : 7 < p) :
    (parseMinutiae (t.set p b)).length = (parseMinutiae t).length :=
  parseMinutiae_set_length t p b (by omega)

theorem c1_amended_witness :
    (parseMinutiae (t36.set 14 9)).length = (parseMinutiae t36).length :=
  c1_amended_decode_never_rejects t36 14 9 (by omega)

/-- C2.  Round trip: for any minutiae sequence of length at most 128 with
in-range fields, any header values fitting 16 bits, and any 16-byte digest
function, decoding the encoding recovers the identical ordered minutiae
sequence, and the width/height/dpi header fields read back (with the
source's own `readUInt16BE` primitive) unchanged. -/
theorem c2_roundtrip (cfg : ImageConfig) (ms : List Minutia)
    (hash : List Nat → List Nat) (hle : ms.length ≤ 128)
    (hfr : ∀ m ∈ ms, FieldsInRange m) (hh : ∀ l, (hash l).length = 16)
    (hw : cfg.width < 65536) (hhgt : cfg.height < 65536) (hd : cfg.dpi < 65536) :
    parseMinutiae (generateTemplate cfg ms hash) = ms ∧
    readUInt16BE (generateTemplate cfg ms hash) 8 = cfg.width ∧
    readUInt16BE (generateTemplate cfg ms hash) 10 = cfg.height ∧
    readUInt16BE (generateTemplate cfg ms hash) 12 = cfg.dpi :=
  ⟨parse_generateTemplate cfg ms hash hle hfr hh,
   generateTemplate_header_fields cfg ms hash hw hhgt hd⟩

theorem c2_witness :
    parseMinutiae (generateTemplate defaultConfig
        [{ x := 10, y := 20, angle := 30, type := 1 }] zeroHash)
      = [{ x := 10, y := 20, angle := 30, type := 1 }] ∧
    readUInt16BE (generateTemplate defaultConfig
        [{ x := 10, y := 20, angle := 30, type := 1 }] zeroHash) 8 = 260 ∧
    readUInt16BE (generateTemplate defaultConfig
        [{ x := 10, y := 20, angle := 30, type := 1 }] zeroHash) 10 = 300 ∧
    readUInt16BE (generateTemplate defaultConfig
        [{ x := 10, y := 20, angle := 30, type := 1 }] zeroHash) 12 = 500 :=
  c2_roundtrip defaultConfig [{ x := 10, y := 20, angle := 30, type := 1 }]
    zeroHash (by decide) (by decide) (fun _ => rfl)
    (by decide) (by decide) (by decide)

/-- C4.  `match` is a total function of its two byte blobs (it is a plain
Lean function here, and in the source the only throw-capable statements sit
inside a catch-all `try`); whenever either input fails to decode — in the
source that is exactly an input shorter than 20 bytes, since
`parseMinutiae` cannot throw on longer inputs — it returns matched `false`,
score `0` and an error field instead of propagating a failure. -/
theorem c4_match_total (t1 t2 : List Nat)
    (h : t1.length < 20 ∨ t2.length < 20) :
    matchTemplates t1 t2 =
      { matched := false, score := 0, matchedMinutiae := none,
        totalMinutiae := none, error := some "Invalid template" } := by
  unfold matchTemplates
  rw [if_pos h]

theorem c4_witness :
    matchTemplates [] [0, 1, 2] =
      { matched := false, score := 0, matchedMinutiae := none,
        totalMinutiae := none, error := some "Invalid template" } :=
  c4_match_total [] [0, 1, 2] (by simp)

/-- C5.  Self-match: for any well-formed encoding of a nonempty minutiae
sequence (at most 128 in-range minutiae, 16-byte digest), matching the
template against itself returns matched `true` and score exactly 100: every
minutia matches itself (distance 0, angle difference 0, same type), so
`matchedCount = min(|A|,|A|)` and the double-precision evaluation of
`(n/n)*100` is exactly 100. -/
theorem c5_self_match (cfg : ImageConfig) (ms : List Minutia)
    (hash : List Nat → List Nat) (hne : ms ≠ []) (hle : ms.length ≤ 128)
    (hfr : ∀ m ∈ ms, FieldsInRange m) (hh : ∀ l, (hash l).length = 16) :
    (matchTemplates (generateTemplate cfg ms hash)
        (generateTemplate cfg ms hash)).matched = true ∧
    (matchTemplates (generateTemplate cfg ms hash)
        (generateTemplate cfg ms hash)).score = 100 := by
  have hparse := parse_generateTemplate cfg ms hash hle hfr hh
  have hlen := generateTemplate_length cfg ms hash hh
  have hpos : 1 ≤ ms.length := List.length_pos.mpr hne
  have hscore : jsScoreN ms.length ms.length = 100 :=
    jsScoreN_self ms.length hpos hle
  unfold matchTemplates
  rw [if_neg (by omega)]
  simp only [hparse, matchedCount_self, Nat.min_self, hscore,
    if_pos (show 0 < ms.length by omega)]
  constructor
  · simp
  · simp

theorem c5_witness :
    (matchTemplates
        (generateTemplate defaultConfig
          [{ x := 10, y := 20, angle := 30, type := 1 }] zeroHash)
        (generateTemplate defaultConfig
          [{ x := 10, y := 20, angle := 30, type := 1 }] zeroHash)).matched = true ∧
    (matchTemplates
        (generateTemplate defaultConfig
          [{ x := 10, y := 20, angle := 30, type := 1 }] zeroHash)
        (generateTemplate defaultConfig
          [{ x := 10, y := 20, angle := 30, type := 1 }] zeroHash)).score = 100 :=
  c5_self_match defaultConfig [{ x := 10, y := 20, angle := 30, type := 1 }]
    zeroHash (by decide) (by decide) (by decide) (fun _ => rfl)

/-- C7.  The quality score is an integer in `[0, 100]` for every image of
the configured size (the final clamp `Math.min(100, Math.max(0, round))`
guarantees it for every value of the three sub-scores, hence for every
square-root function `sq` and every pixel content, degenerate constant
images included).  The size hypotheses delimit the scope to configured
sizes, where the source computation is NaN-free. -/
theorem c7_quality_bounds (sq : ℚ → ℚ) (cfg : ImageConfig) (img : List Nat)
    (_hw : 2 < cfg.width) (_hhgt : 2 < cfg.height)
    (_hlen : img.length = cfg.width * cfg.height) :
    0 ≤ calculateQuality sq cfg img ∧ calculateQuality sq cfg img ≤ 100 := by
  unfold calculateQuality
  exact ⟨le_min (by norm_num) (le_max_left 0 _), min_le_left _ _⟩

theorem c7_witness :
    (0 ≤ calculateQuality id defaultConfig (List.replicate 78000 0) ∧
      calculateQuality id defaultConfig (List.replicate 78000 0) ≤ 100) ∧
    (0 ≤ calculateQuality id defaultConfig (List.replicate 78000 255) ∧
      calculateQuality id defaultConfig (List.replicate 78000 255) ≤ 100) :=
  ⟨c7_quality_bounds id defaultConfig _ (by decide) (by decide)
      (by rw [List.length_replicate]; rfl),
   c7_quality_bounds id defaultConfig _ (by decide) (by decide)
      (by rw [List.length_replicate]; rfl)⟩

/-- C8.  Calling `connect()` while already connected is idempotent: it
returns `alreadyConnected: true` with the current device info (identifiers
and product name, the fields lines 106–110 include) and leaves the session
state — in particular the open device handle — completely unchanged. -/
theorem c8_idempotent_connect (s : ScannerState) (devs : List USBDevice)
    (d : USBDevice) (hc : s.isConnected = true) (hd : s.device = some d) :
    connect s devs =
      (s, { success := true, alreadyConnected := true,
            deviceInfo := some { vendorId := d.idVendor, idProduct := d.idProduct,
                                 productName := s.productName, serialNumber := none,
                                 communicationMode := none } }) := by
  unfold connect
  rw [hc, hd]

theorem c8_witness :
    connect connectedState [] =
      (connectedState,
        { success := true, alreadyConnected := true,
          deviceInfo := some { vendorId := 0x1162, idProduct := 0x0320,
                               productName := some "U20", serialNumber := none,
                               communicationMode := none } }) :=
  c8_idempotent_connect connectedState [] u20OutOnly rfl rfl

/-- C9.  Invoking `capture()` while a capture is in flight (the session is
`Capturing`, which in the source means `isCapturing` is set and the session
is connected) is rejected immediately by the guard at lines 439–441 with
`Error('Capture already in progress')`, before `isCapturing` is touched,
any event is emitted or any transfer is issued: the session state —
including the in-flight capture's state — is returned unchanged. -/
theorem c9_already_capturing (s : ScannerState) (devs : List USBDevice)
    (hc : s.isConnected = true) (hcap : s.isCapturing = true) :
    captureEntry s devs
      = (s, CaptureEntry.alreadyCapturing "Capture already in progress") := by
  unfold captureEntry captureGuard
  simp [hc, hcap]

theorem c9_witness :
    captureEntry capturingState []
      = (capturingState,
          CaptureEntry.alreadyCapturing "Capture already in progress") :=
  c9_already_capturing capturingState [] rfl rfl

/-- C10.  If both inputs decode (length at least 20) and either decodes to
zero minutiae, `match` returns score 0 and matched `false` with no error
field: the `maxPossible > 0` guard (line 883) avoids the division entirely,
so no division by zero and no non-integer score can arise. -/
theorem c10_zero_minutiae (t1 t2 : List Nat) (h1 : 20 ≤ t1.length)
    (h2 : 20 ≤ t2.length)
    (hz : parseMinutiae t1 = [] ∨ parseMinutiae t2 = []) :
    matchTemplates t1 t2 =
      { matched := false, score := 0, matchedMinutiae := some 0,
        totalMinutiae := some 0, error := none } := by
  unfold matchTemplates
  rw [if_neg (by omega)]
  rcases hz with hz | hz <;> simp [hz, matchedCount]

theorem c10_witness :
    matchTemplates (generateTemplate defaultConfig [] zeroHash)
        (generateTemplate defaultConfig [] zeroHash) =
      { matched := false, score := 0, matchedMinutiae := some 0,
        totalMinutiae := some 0, error := none } :=
  c10_zero_minutiae _ _ (by decide) (by decide) (Or.inl (by decide))

/-- C3 (counterexample).  The claim says bulk mode is selected only if an
IN endpoint was discovered, and control mode is used whenever no IN
endpoint was discovered.  But the source decides from the OUT endpoint
(line 200: `!this.outEndpoint || productName === 'HAMSTER_PRO'`): connecting
to a U20 exposing only an OUT endpoint succeeds with no IN endpoint
discovered, yet selects bulk mode (`useControlTransfer = false`). -/
theorem c3_counterexample :
    (connect initialState [u20OutOnly]).2.success = true ∧
    (connect initialState [u20OutOnly]).1.inEndpoint = false ∧
    (connect initialState [u20OutOnly]).1.useControlTransfer = false := by
  constructor
  · rfl
  constructor
  · rfl
  · rfl

/-- C3 (amended).  After a successful fresh connect, bulk mode is selected
iff an OUT endpoint is recorded (discovered now, or retained from an
earlier session) and the product is not HAMSTER_PRO; equivalently,
`useControlTransfer = !outEndpoint || productName == "HAMSTER_PRO"` on the
resulting state.  The mode is assigned only by `connect`: `disconnect` and
the entry phase of `capture` on a connected session leave it unchanged, so
it is fixed for the life of the open handle. -/
theorem c3_amended_mode_selection :
    (∀ (s : ScannerState) (devs : List USBDevice),
        s.isConnected = false → ((connect s devs).2).success = true →
        (connect s devs).1.useControlTransfer
          = (!(connect s devs).1.outEndpoint
              || ((connect s devs).1.productName == some "HAMSTER_PRO"))) ∧
    (∀ s : ScannerState, (disconnect s).useControlTransfer = s.useControlTransfer) ∧
    (∀ (s : ScannerState) (devs : List USBDevice), s.isConnected = true →
        (captureEntry s devs).1.useControlTransfer = s.useControlTransfer) := by
  refine ⟨?_, disconnect_useControlTransfer,
    captureEntry_connected_useControlTransfer⟩
  intro s devs hc hsucc
  have hcf : connect s devs = connectFresh s devs := by
    unfold connect
    rw [hc]
  rw [hcf] at hsucc ⊢
  unfold connectFresh at hsucc ⊢
  set dev1 := (findSecuGen devs).orElse fun _ => s.device with hdev
  set pname := (match findSecuGen devs with
    | some d0 => some (productNameOf d0.idProduct)
    | none => s.productName) with hpn
  clear_value dev1
  revert hsucc
  cases dev1 with
  | none =>
    intro hsucc
    simp at hsucc
  | some d =>
    intro hsucc
    exact connectOpen_mode s pname d hsucc

theorem c3_amended_witness :
    (connect initialState [u20OutOnly]).1.useControlTransfer
      = (!(connect initialState [u20OutOnly]).1.outEndpoint
          || ((connect initialState [u20OutOnly]).1.productName
                == some "HAMSTER_PRO")) :=
  c3_amended_mode_selection.1 initialState [u20OutOnly] rfl rfl

set_option maxRecDepth 100000
set_option maxHeartbeats 2000000

/-- C6 (counterexample).  The claim's formula
`score = round(matchedCount / min(|A|,|B|) × 100)` fails on the code: at
`matchedCount = 23`, `min = 40` the exact value is `57.5` and every
standard rounding gives 58 (`ratRound100 23 40 = 58`), but the source's
double-precision evaluation `Math.round((23/40)*100)` computes
`Math.round(57.49999999999999)` = 57, because the binary64 value of `23/40`
is slightly below the exact quotient.  `cexA` and `cexB` are well-formed
encoded templates realizing exactly these counts. -/
theorem c6_counterexample :
    (matchTemplates cexA cexB).matchedMinutiae = some 23 ∧
    (matchTemplates cexA cexB).totalMinutiae = some 40 ∧
    (matchTemplates cexA cexB).score = 57 ∧
    ratRound100 23 40 = 58 := by decide

/-- C6 (amended).  For well-formed templates with a positive minimum
minutiae count: `matchedCount` counts the minutiae of A with some
compatible minutia in B (Euclidean distance below 20, absolute angle
difference below 30, identical type), the divisor is `min(|A|,|B|)`,
`matched` is `score ≥ 60`, and the score is the double-precision evaluation
of `round(matchedCount / min × 100)` — which equals the exact rounding
except at exact-half boundary operands, where it can be one less (as at
`matchedCount 23, min 40`). -/
theorem c6_amended_score_formula (t1 t2 : List Nat)
    (h1 : WellFormedTemplate t1) (h2 : WellFormedTemplate t2)
    (hn : 0 < min (parseMinutiae t1).length (parseMinutiae t2).length) :
    (matchTemplates t1 t2).matchedMinutiae
        = some (matchedCount (parseMinutiae t1) (parseMinutiae t2)) ∧
    (matchTemplates t1 t2).totalMinutiae
        = some (min (parseMinutiae t1).length (parseMinutiae t2).length) ∧
    (matchTemplates t1 t2).matched
        = decide (60 ≤ (matchTemplates t1 t2).score) ∧
    ((matchTemplates t1 t2).score
        = ratRound100 (matchedCount (parseMinutiae t1) (parseMinutiae t2))
            (min (parseMinutiae t1).length (parseMinutiae t2).length) ∨
      ((matchTemplates t1 t2).score + 1
          = ratRound100 (matchedCount (parseMinutiae t1) (parseMinutiae t2))
              (min (parseMinutiae t1).length (parseMinutiae t2).length) ∧
        (200 * matchedCount (parseMinutiae t1) (parseMinutiae t2)
            + min (parseMinutiae t1).length (parseMinutiae t2).length)
          % (2 * min (parseMinutiae t1).length (parseMinutiae t2).length)
          = 0)) := by
  obtain ⟨hl1, hc1⟩ := h1
  obtain ⟨hl2, hc2⟩ := h2
  have h20 : ¬(t1.length < 20 ∨ t2.length < 20) := by omega
  have hk : matchedCount (parseMinutiae t1) (parseMinutiae t2) ≤ 128 := by
    have := matchedCount_le (parseMinutiae t1) (parseMinutiae t2)
    have := parseMinutiae_length_le_count t1
    omega
  have hnle : min (parseMinutiae t1).length (parseMinutiae t2).length ≤ 128 := by
    have := parseMinutiae_length_le_count t1
    have hmin := Nat.min_le_left (parseMinutiae t1).length (parseMinutiae t2).length
    omega
  rw [matchTemplates_not_short t1 t2 h20]
  simp only [if_pos hn]
  exact ⟨trivial, trivial, trivial,
    jsScore_vs_round _ _ hk (by omega) hnle⟩

theorem c6_amended_witness :
    (matchTemplates cexA cexB).matchedMinutiae
      = some (matchedCount (parseMinutiae cexA) (parseMinutiae cexB)) :=
  (c6_amended_score_formula cexA cexB (by decide) (by decide) (by decide)).1

end Fingerprint
